import Mathlib

/-!
Verification of the Electric-Car-Racing visualization/data-store design.

The repository sources under verification are `visualization_functions.py`
(the `MainWindow.signalPlotRefresh` slot and the `PlotRefreshTimingThread`
ticker) together with the shared `DataStore`.  `datastore.py` and
`simulation_functions.py` themselves are not part of the repository snapshot
(only their callers are), so the store and the worker state machine are
modelled from the wording of the specification; everything in
`visualization_functions.py` is translated directly from that source.

Python floats are modelled as rationals (ℚ); indices are `Int` because the
refresh path computes `get_simulation_index() - 1`, which can be negative.
-/

/-- The seven tracked series of the store (time, distance, velocity,
track max velocity, acceleration, motor power, battery power). -/
inductive SeriesName
  | time
  | distance
  | velocity
  | trackMaxVelocity
  | acceleration
  | motorPower
  | batteryPower
deriving DecidableEq, Repr

/-- The list of all series names, used by `commit_record` to check that
every series has been written for the in-progress index. -/
def allSeriesNames : List SeriesName :=
  [.time, .distance, .velocity, .trackMaxVelocity, .acceleration,
   .motorPower, .batteryPower]

/-- Modelled from the spec: `datastore.py` is not in the repository snapshot.
`SharedSimulationStore` fields: one ordered sequence of doubles per series and
`simulation_index`, the index of the last sample guaranteed fully written
across all series. -/
structure DataStore where
  series : SeriesName → List ℚ
  simulation_index : Int

/-- Modelled from the spec: the store is created empty
(`simulation_index = -1`, "no data") when a simulation run begins. -/
def DataStore.initial : DataStore :=
  { series := fun _ => [], simulation_index := -1 }

/-- Operation `current_index()` / `get_simulation_index()`: returns `simulation_index`
at time of call. -/
def get_simulation_index (s : DataStore) : Int :=
  s.simulation_index

/-- The single error of the store: a read requested an index beyond
`simulation_index` or a negative index. -/
inductive OutOfRangeError
  | outOfRange
deriving DecidableEq, Repr

/-- Modelled from the spec: `read_field(index, series_name) -> value` fails
with `OutOfRangeError` if `index > simulation_index` or `index < 0`;
otherwise it returns the committed value at that position. -/
def read_field (s : DataStore) (i : Int) (name : SeriesName) :
    Except OutOfRangeError ℚ :=
  if i > s.simulation_index ∨ i < 0 then
    .error .outOfRange
  else
    .ok ((s.series name).getD i.toNat 0)

/-- Modelled from the spec: `begin_record()` prepares to write a new sample at
`simulation_index + 1`; it must not advance `simulation_index`, and the spec
gives it no other observable effect on the store state. -/
def begin_record (s : DataStore) : DataStore :=
  s

/-- Modelled from the spec: `write_field(index, series_name, value)` writes one
series value for the in-progress index `simulation_index + 1`.  The write
lands at the tail of that series (the position equal to the current length of that series); a call outside the producer protocol is a no-op. -/
def write_field (s : DataStore) (i : Int) (name : SeriesName) (v : ℚ) :
    DataStore :=
  if i = s.simulation_index + 1 ∧ ((s.series name).length : Int) = i then
    { s with series := fun n => if n = name then s.series name ++ [v] else s.series n }
  else
    s

/-- Modelled from the spec: `commit_record()` atomically advances
`simulation_index` to the newly completed position, making it visible to
readers; it MUST be the last step after all series for that index are written,
modelled as a guard — the index advances only when every series holds a value
at the new position. -/
def commit_record (s : DataStore) : DataStore :=
  if ∀ name ∈ allSeriesNames, ((s.series name).length : Int) = s.simulation_index + 2 then
    { s with simulation_index := s.simulation_index + 1 }
  else
    s

/-- A producer-side store operation (`begin_record` / `write_field` /
`commit_record`). -/
inductive StoreWriteOp
  | begin
  | write (i : Int) (name : SeriesName) (v : ℚ)
  | commit
deriving DecidableEq

/-- Apply one producer operation to the store. -/
def applyOp (s : DataStore) (op : StoreWriteOp) : DataStore :=
  match op with
  | .begin => begin_record s
  | .write i name v => write_field s i name v
  | .commit => commit_record s

/-- Apply a sequence of producer operations, oldest first. -/
def applyOps (s : DataStore) (ops : List StoreWriteOp) : DataStore :=
  ops.foldl applyOp s

/-- Getter `get_time_at_index` in `signalPlotRefresh` is the `read_field` of the store
specialized to the `time` series. -/
def get_time_at_index (s : DataStore) (i : Int) : Except OutOfRangeError ℚ :=
  read_field s i .time

/-- Getter `get_distance_at_index`: `read_field` on the `distance` series. -/
def get_distance_at_index (s : DataStore) (i : Int) : Except OutOfRangeError ℚ :=
  read_field s i .distance

/-- Getter `get_velocity_at_index`: `read_field` on the `velocity` series. -/
def get_velocity_at_index (s : DataStore) (i : Int) : Except OutOfRangeError ℚ :=
  read_field s i .velocity

/-- Getter `get_track_max_velocity_at_index`: `read_field` on the
`trackMaxVelocity` series. -/
def get_track_max_velocity_at_index (s : DataStore) (i : Int) :
    Except OutOfRangeError ℚ :=
  read_field s i .trackMaxVelocity

/-- Getter `get_acceleration_at_index`: `read_field` on the `acceleration` series. -/
def get_acceleration_at_index (s : DataStore) (i : Int) :
    Except OutOfRangeError ℚ :=
  read_field s i .acceleration

/-- Getter `get_motor_power_at_index`: `read_field` on the `motorPower` series. -/
def get_motor_power_at_index (s : DataStore) (i : Int) :
    Except OutOfRangeError ℚ :=
  read_field s i .motorPower

/-- Getter `get_battery_power_at_index`: `read_field` on the `batteryPower` series. -/
def get_battery_power_at_index (s : DataStore) (i : Int) :
    Except OutOfRangeError ℚ :=
  read_field s i .batteryPower

/-- The checkbox states `signalPlotRefresh` consults (`checkboxDistance`,
`checkboxVelocity`, `checkboxAcceleration`, `checkboxMotorPower`,
`checkboxBatteryPower`; `checkboxTime` and `checkboxBatteryEnergy` are never
consulted by the refresh slot). -/
structure Checkboxes where
  distance : Bool
  velocity : Bool
  acceleration : Bool
  motorPower : Bool
  batteryPower : Bool
deriving DecidableEq, Repr

/-- All checkboxes unchecked (their initial state in
`createUserDisplayControls`). -/
def cbNone : Checkboxes :=
  { distance := false, velocity := false, acceleration := false,
    motorPower := false, batteryPower := false }

/-- Only the Battery Power checkbox checked. -/
def cbBatteryOnly : Checkboxes :=
  { distance := false, velocity := false, acceleration := false,
    motorPower := false, batteryPower := true }

/-- One `plot(x=..., y=...)` call on a pyqtgraph plot item. -/
structure PlotCall where
  x : List Int
  y : List ℚ
deriving DecidableEq, Repr

/-- The observable output of one completed `signalPlotRefresh` cycle: the
text/spin boxes it sets and the plot calls it issues.  A hidden plot
(`pN.hide()`) is `none`; `p3` gets two calls (max velocity with a red pen,
then velocity). -/
structure RefreshOutput where
  textboxSimulationIndex : Int
  spinboxTime : ℚ
  spinboxDistance : ℚ
  spinboxVelocity : ℚ
  spinboxAcceleration : ℚ
  spinboxMotorPower : ℚ
  spinboxBatteryPower : ℚ
  p1 : PlotCall
  p2 : Option PlotCall
  p3 : Option (PlotCall × PlotCall)
  p4 : Option PlotCall
  p5 : Option PlotCall
  p6 : Option PlotCall
deriving DecidableEq, Repr

/-- Translation of `x = [z+1 for z in range(current_sim_index)]` — the x values (and read
indices) of the per-point plotting loop; empty when `current_sim_index <= 0`
because the Python `range` of a non-positive bound is empty. -/
def refreshXs (current_sim_index : Int) : List Int :=
  (List.range current_sim_index.toNat).map fun (z : ℕ) => (z : Int) + 1

/-- The `for z in x:` loop of `signalPlotRefresh`: for each `z` it reads
time, distance, velocity, track max velocity, acceleration and motor power at
`z` and appends each to its list (the battery-power append is commented out in
the source, so no battery-power read happens here). -/
def plotSeriesLists (store : DataStore) :
    List Int →
    Except OutOfRangeError
      (List ℚ × List ℚ × List ℚ × List ℚ × List ℚ × List ℚ)
  | [] => .ok ([], [], [], [], [], [])
  | z :: rest => do
    let t ← get_time_at_index store z
    let d ← get_distance_at_index store z
    let v ← get_velocity_at_index store z
    let mv ← get_track_max_velocity_at_index store z
    let a ← get_acceleration_at_index store z
    let mp ← get_motor_power_at_index store z
    let (ts, ds, vs, mvs, accs, mps) ← plotSeriesLists store rest
    .ok (t :: ts, d :: ds, v :: vs, mv :: mvs, a :: accs, mp :: mps)

/-- Slot `MainWindow.signalPlotRefresh` (visualization_functions.py, lines
226-293), translated statement by statement: snapshot
`current_sim_index = get_simulation_index() - 1`; set the index textbox; read
each quantity at `current_sim_index` into its spinbox; build
`x = [z+1 for z in range(current_sim_index)]`; run the per-point read loop;
`_battery_power` stays `[]` (its append is commented out); plot `p1`
unconditionally and `p2`..`p6` according to the checkboxes (the `p7`
battery-energy block is dead code inside a string literal).  The source has no
try/except, so a store error aborts the slot — modelled by the `Except`
monad. -/
def signalPlotRefresh (store : DataStore) (cb : Checkboxes) :
    Except OutOfRangeError RefreshOutput := do
  let current_sim_index := get_simulation_index store - 1
  let time ← get_time_at_index store current_sim_index
  let distance ← get_distance_at_index store current_sim_index
  let velocity ← get_velocity_at_index store current_sim_index
  let acceleration ← get_acceleration_at_index store current_sim_index
  let motor_power ← get_motor_power_at_index store current_sim_index
  let battery_power ← get_battery_power_at_index store current_sim_index
  let x := refreshXs current_sim_index
  let (ts, ds, vs, mvs, accs, mps) ← plotSeriesLists store x
  let battery_power_list : List ℚ := []
  .ok
    { textboxSimulationIndex := current_sim_index
      spinboxTime := time
      spinboxDistance := distance
      spinboxVelocity := velocity
      spinboxAcceleration := acceleration
      spinboxMotorPower := motor_power
      spinboxBatteryPower := battery_power
      p1 := { x := x, y := ts }
      p2 := if cb.distance then some { x := x, y := ds } else none
      p3 := if cb.velocity then some ({ x := x, y := mvs }, { x := x, y := vs }) else none
      p4 := if cb.acceleration then some { x := x, y := accs } else none
      p5 := if cb.motorPower then some { x := x, y := mps } else none
      p6 := if cb.batteryPower then some { x := x, y := battery_power_list } else none }

/-- One store operation observable from the consumer side: a
`get_simulation_index()` query or a per-series read at an index. -/
inductive StoreReadOp
  | queryIndex
  | readAt (i : Int) (name : SeriesName)
deriving DecidableEq, Repr

/-- The sequence of store operations one complete `signalPlotRefresh` cycle
issues, in source order, as a function of `ci`, the value returned by the
single `get_simulation_index()` call: the query itself, the six spinbox reads
at `ci - 1`, then six reads per `z` in `[1..ci-1]` from the plotting loop. -/
def refreshStoreOps (ci : Int) : List StoreReadOp :=
  [.queryIndex,
   .readAt (ci - 1) .time, .readAt (ci - 1) .distance,
   .readAt (ci - 1) .velocity, .readAt (ci - 1) .acceleration,
   .readAt (ci - 1) .motorPower, .readAt (ci - 1) .batteryPower]
  ++ (refreshXs (ci - 1)).flatMap fun z =>
      [.readAt z .time, .readAt z .distance, .readAt z .velocity,
       .readAt z .trackMaxVelocity, .readAt z .acceleration,
       .readAt z .motorPower]

/-- State of `PlotRefreshTimingThread`: its `exiting` flag, set in `__init__`
to `False` and in `__del__` to `True`. -/
structure PlotRefreshTimingThread where
  exiting : Bool
deriving DecidableEq, Repr

/-- Constructor `PlotRefreshTimingThread.__init__`: `self.exiting = False`. -/
def plotRefreshInit : PlotRefreshTimingThread :=
  { exiting := false }

/-- Destructor `PlotRefreshTimingThread.__del__`: sets `self.exiting = True` (and then
calls `self.wait()`, intending to join `run` synchronously). -/
def plotRefreshStop (t : PlotRefreshTimingThread) : PlotRefreshTimingThread :=
  { t with exiting := true }

/-- The loop guard of `PlotRefreshTimingThread.run`: the source is
`while True:`, so the guard is the constant `true` and never consults the
`exiting` flag of the thread. -/
def tickerLoopGuard (t : PlotRefreshTimingThread) : Bool :=
  true

/-- An observable event of the ticker loop: a `time.sleep` of the given
number of milliseconds, or an emission of `plotRefreshTimingSignal`.  The
signal is declared `pyqtSignal()` with no argument types, so the emission
carries a payload of type `Unit`. -/
inductive TickerEvent
  | sleep (ms : ℕ)
  | tick (payload : Unit)
deriving DecidableEq, Repr

/-- One iteration of the loop of `run` in thread state `t`: if the guard holds,
`time.sleep(0.25)` (250 ms) followed by one signal emission. -/
def tickerLoopStep (t : PlotRefreshTimingThread) : List TickerEvent :=
  if tickerLoopGuard t then [.sleep 250, .tick ()] else []

/-- The events emitted by the first `n` iterations of
the loop of `PlotRefreshTimingThread.run` executed in thread state `t`. -/
def tickerRunFrom (t : PlotRefreshTimingThread) : ℕ → List TickerEvent
  | 0 => []
  | n + 1 => tickerLoopStep t ++ tickerRunFrom t n

/-- The fixed refresh period of the ticker, from `time.sleep(0.25)`:
250 milliseconds. -/
def PLOT_REFRESH_PERIOD_MS : ℕ :=
  250

/-- Worker control states. Modelled from the spec: `simulation_functions.py`
(the `SimulationThread` worker) is not in the repository snapshot; the state
machine is taken from the worker control surface described in the spec. -/
inductive WorkerState
  | Idle
  | Running
  | Paused
  | Stopped
deriving DecidableEq, Repr

/-- Worker control commands (`start()`, `pause()`, `stop()`). -/
inductive WorkerCmd
  | start
  | pause
  | stop
deriving DecidableEq, Repr

/-- Modelled from the spec: the worker state machine.  `Idle → Running` on
start; `Running → Paused` on pause, resumable to `Running`; any state goes to
`Stopped` on stop (terminal); a command with no defined transition is a
no-op (the `InvalidTransitionError` policy of the spec). -/
def workerStep : WorkerState → WorkerCmd → WorkerState
  | _, .stop => .Stopped
  | .Stopped, _ => .Stopped
  | .Idle, .start => .Running
  | .Running, .start => .Running
  | .Paused, .start => .Running
  | .Running, .pause => .Paused
  | .Paused, .pause => .Paused
  | .Idle, .pause => .Idle

/-- The store after the worker has committed exactly `n` records in which
every series holds the value `i` at index `i` (the spec scenario
`time = [0, 1, ..., n-1]`): each series is `[0, 1, ..., n-1]` and
`simulation_index` is `n - 1`. -/
def committedStore (n : ℕ) : DataStore :=
  { series := fun _ => (List.range n).map fun (i : ℕ) => (i : ℚ),
    simulation_index := (n : Int) - 1 }

/-- A store whose in-progress record at position 0 has every series written
but not yet committed (`simulation_index` still `-1`). -/
def pendingStore : DataStore :=
  { series := fun _ => [0], simulation_index := -1 }

/-- The concrete refresh output of the 5-record scenario store with only the
Battery Power checkbox checked: time values [1,2,3] are plotted at x values
[1,2,3], and the battery-power plot receives an empty y list. -/
def refreshOutput5 : RefreshOutput :=
  { textboxSimulationIndex := 3
    spinboxTime := 3
    spinboxDistance := 3
    spinboxVelocity := 3
    spinboxAcceleration := 3
    spinboxMotorPower := 3
    spinboxBatteryPower := 3
    p1 := { x := [1, 2, 3], y := [1, 2, 3] }
    p2 := none
    p3 := none
    p4 := none
    p5 := none
    p6 := some { x := [1, 2, 3], y := [] } }

/-! ## Shared helper lemmas -/

/-- No single producer operation decreases `simulation_index`. -/
theorem sim_applyOp_mono (s : DataStore) (op : StoreWriteOp) :
    get_simulation_index s ≤ get_simulation_index (applyOp s op) := by
  cases op with
  | begin => exact le_refl _
  | write i name v =>
    simp only [applyOp, write_field, get_simulation_index]
    split <;> simp
  | commit =>
    simp only [applyOp, commit_record, get_simulation_index]
    split <;> simp

/-- Unfolding lemma: `applyOps` on a cons unfolds to `applyOps` of the tail. -/
theorem applyOps_cons (s : DataStore) (op : StoreWriteOp)
    (ops : List StoreWriteOp) :
    applyOps s (op :: ops) = applyOps (applyOp s op) ops :=
  rfl

/-- No sequence of producer operations decreases `simulation_index`. -/
theorem sim_applyOps_mono (s : DataStore) (ops : List StoreWriteOp) :
    get_simulation_index s ≤ get_simulation_index (applyOps s ops) := by
  induction ops generalizing s with
  | nil => exact le_refl _
  | cons op rest ih =>
    rw [applyOps_cons]
    exact le_trans (sim_applyOp_mono s op) (ih (applyOp s op))

/-- A committed read (`0 ≤ i ≤ simulation_index`) is unchanged by any single
later producer operation: `begin_record` leaves the store alone, `write_field`
appends strictly beyond `simulation_index`, and `commit_record` only raises
the index. -/
theorem read_field_applyOp_stable (s : DataStore) (op : StoreWriteOp)
    (i : Int) (name : SeriesName) (h0 : 0 ≤ i)
    (hle : i ≤ get_simulation_index s) :
    read_field (applyOp s op) i name = read_field s i name := by
  have hnot : ¬(i > s.simulation_index ∨ i < 0) := by
    simp only [get_simulation_index] at hle
    omega
  cases op with
  | begin => rfl
  | write j wname v =>
    simp only [applyOp, write_field]
    split
    · next hcond =>
      simp only [read_field, if_neg hnot]
      by_cases hn : name = wname
      · subst hn
        have hlen : i.toNat < (s.series name).length := by
          simp only [get_simulation_index] at hle
          omega
        simp only [if_pos rfl, if_true]
        rw [List.getD_append _ _ _ _ hlen]
      · simp [hn]
    · rfl
  | commit =>
    simp only [applyOp, commit_record]
    split
    · next hall =>
      have hnot' : ¬(i > s.simulation_index + 1 ∨ i < 0) := by
        simp only [get_simulation_index] at hle
        omega
      simp only [read_field, if_neg hnot, if_neg hnot']
    · rfl

/-- A committed read is unchanged by any later sequence of producer
operations (immutability of committed data). -/
theorem read_field_applyOps_stable (s : DataStore) (ops : List StoreWriteOp)
    (i : Int) (name : SeriesName) (h0 : 0 ≤ i)
    (hle : i ≤ get_simulation_index s) :
    read_field (applyOps s ops) i name = read_field s i name := by
  induction ops generalizing s with
  | nil => rfl
  | cons op rest ih =>
    rw [applyOps_cons,
        ih (applyOp s op) (le_trans hle (sim_applyOp_mono s op)),
        read_field_applyOp_stable s op i name h0 hle]

/-! ## Claim theorems -/

/-- C7: within one simulation run the `simulation_index` of the store is
monotonically non-decreasing — the value of `current_index()` observed before
any further producer operations is at most the value observed after them, and
no single operation decreases it. -/
theorem c7_simulation_index_monotone (s : DataStore)
    (ops : List StoreWriteOp) (op : StoreWriteOp) :
    get_simulation_index s ≤ get_simulation_index (applyOps s ops) ∧
    get_simulation_index s ≤ get_simulation_index (applyOp s op) :=
  ⟨sim_applyOps_mono s ops, sim_applyOp_mono s op⟩

/-- C8: commit-gated visibility — a read at `simulation_index + 1` always
fails before the commit for that position, `commit_record` is the only
producer operation that changes `simulation_index`, and when a commit does
advance the index every series already holds a value at the newly visible
position. -/
theorem c8_commit_gated_visibility :
    (∀ (s : DataStore) (name : SeriesName),
      read_field s (get_simulation_index s + 1) name = .error .outOfRange) ∧
    (∀ (s : DataStore) (op : StoreWriteOp), op ≠ .commit →
      get_simulation_index (applyOp s op) = get_simulation_index s) ∧
    (∀ s : DataStore,
      get_simulation_index (commit_record s) ≠ get_simulation_index s →
      ∀ name ∈ allSeriesNames,
        ((s.series name).length : Int) = get_simulation_index s + 2) := by
  refine ⟨?_, ?_, ?_⟩
  · intro s name
    simp only [read_field, get_simulation_index]
    rw [if_pos (Or.inl (by omega))]
  · intro s op hop
    cases op with
    | begin => rfl
    | write i name v =>
      simp only [applyOp, write_field, get_simulation_index]
      split <;> rfl
    | commit => exact absurd rfl hop
  · intro s hs
    by_cases h : ∀ name ∈ allSeriesNames,
        ((s.series name).length : Int) = s.simulation_index + 2
    · exact h
    · exact absurd (by simp [commit_record, if_neg h]) hs

/-- Witness for C8 at concrete inputs: the initial store rejects a read at
index 0 (= `simulation_index + 1`), `begin_record` leaves the index at `-1`,
and a store whose commit advances the index has every series written at the
new position. -/
theorem c8_commit_gated_visibility_witness :
    read_field DataStore.initial (get_simulation_index DataStore.initial + 1)
      .time = .error .outOfRange ∧
    get_simulation_index (applyOp DataStore.initial .begin) =
      get_simulation_index DataStore.initial ∧
    ((pendingStore.series .time).length : Int) =
      get_simulation_index pendingStore + 2 :=
  ⟨c8_commit_gated_visibility.1 DataStore.initial .time,
   c8_commit_gated_visibility.2.1 DataStore.initial .begin (by decide),
   c8_commit_gated_visibility.2.2 pendingStore (by decide) .time (by decide)⟩

/-- C5: `read_field(i, s)` fails with `OutOfRangeError` iff
`i > simulation_index` or `i < 0`; every in-range read returns a value; and
that value is identical after any later sequence of producer operations
(committed data is immutable). -/
theorem c5_read_field_range_and_immutable :
    (∀ (s : DataStore) (i : Int) (name : SeriesName),
      read_field s i name = .error .outOfRange ↔
        (i > get_simulation_index s ∨ i < 0)) ∧
    (∀ (s : DataStore) (i : Int) (name : SeriesName),
      0 ≤ i → i ≤ get_simulation_index s →
      ∃ v, read_field s i name = .ok v) ∧
    (∀ (s : DataStore) (ops : List StoreWriteOp) (i : Int)
      (name : SeriesName),
      0 ≤ i → i ≤ get_simulation_index s →
      read_field (applyOps s ops) i name = read_field s i name) := by
  refine ⟨?_, ?_, read_field_applyOps_stable⟩
  · intro s i name
    simp only [read_field, get_simulation_index]
    split
    · next h => exact iff_of_true rfl h
    · next h => exact iff_of_false (by simp) h
  · intro s i name h0 hle
    simp only [get_simulation_index] at hle
    exact ⟨(s.series name).getD i.toNat 0,
      by simp only [read_field]; rw [if_neg (by omega)]⟩

/-- Witness for C5 at concrete inputs: in the 5-record scenario store,
reading index 2 returns a value, and a later `commit_record` leaves that
value unchanged. -/
theorem c5_read_field_range_and_immutable_witness :
    (∃ v, read_field (committedStore 5) 2 .time = .ok v) ∧
    read_field (applyOps (committedStore 5) [.commit]) 2 .time =
      read_field (committedStore 5) 2 .time :=
  ⟨c5_read_field_range_and_immutable.2.1 (committedStore 5) 2 .time
     (by decide) (by decide),
   c5_read_field_range_and_immutable.2.2 (committedStore 5) [.commit] 2 .time
     (by decide) (by decide)⟩

/-- C9: the worker control surface is idempotent over
`{Idle, Running, Paused, Stopped}` — `start()` while `Running` is a no-op,
`stop()` from any state yields `Stopped`, and `Stopped` is terminal. -/
theorem c9_worker_control_idempotent :
    workerStep .Running .start = .Running ∧
    (∀ s : WorkerState, workerStep s .stop = .Stopped) ∧
    (∀ c : WorkerCmd, workerStep .Stopped c = .Stopped) := by
  refine ⟨rfl, ?_, ?_⟩
  · intro s
    cases s <;> rfl
  · intro c
    cases c <;> rfl

/-- C2 (code bug): the claim says that after the stop operation of the ticker
(`__del__`, which sets `exiting` and waits) no further ticks are delivered;
but the loop guard of `run` is the constant `while True` and never consults
`exiting`, so with `exiting = true` the guard still holds and two further
loop iterations still emit two ticks. -/
theorem c2_ticker_ignores_exiting :
    tickerLoopGuard (plotRefreshStop plotRefreshInit) = true ∧
    tickerRunFrom (plotRefreshStop plotRefreshInit) 2 =
      [.sleep 250, .tick (), .sleep 250, .tick ()] :=
  ⟨rfl, rfl⟩

/-- C6: once started, the ticker repeatedly suspends for the fixed 250 ms
period and then emits one tick; every event of its loop is such a sleep or
such a tick; the tick payload type is `Unit` (the signal transports no data);
and the refresh cycle of the consumer begins by querying the current index of
the store itself. -/
theorem c6_ticker_period_and_payload :
    (∀ (t : PlotRefreshTimingThread) (n : ℕ),
      tickerRunFrom t (n + 1) =
        [.sleep PLOT_REFRESH_PERIOD_MS, .tick ()] ++ tickerRunFrom t n) ∧
    (∀ (t : PlotRefreshTimingThread) (n : ℕ) (e : TickerEvent),
      e ∈ tickerRunFrom t n →
      e = .sleep PLOT_REFRESH_PERIOD_MS ∨ e = .tick ()) ∧
    (∀ u : Unit, TickerEvent.tick u = TickerEvent.tick ()) ∧
    (∀ ci : Int, (refreshStoreOps ci).head? = some .queryIndex) := by
  refine ⟨fun t n => rfl, ?_, fun u => rfl, fun ci => rfl⟩
  intro t n e he
  induction n with
  | zero => simp [tickerRunFrom] at he
  | succ n ih =>
    simp only [tickerRunFrom, tickerLoopStep, tickerLoopGuard, if_true,
      List.cons_append, List.nil_append, List.mem_cons] at he
    rcases he with rfl | rfl | he
    · exact Or.inl rfl
    · exact Or.inr rfl
    · exact ih he

/-- Witness for C6 at a concrete input: the first loop iteration contains the
250 ms sleep, and that event is indeed a sleep-or-tick. -/
theorem c6_ticker_period_and_payload_witness :
    TickerEvent.sleep PLOT_REFRESH_PERIOD_MS ∈ tickerRunFrom plotRefreshInit 1 ∧
    (TickerEvent.sleep PLOT_REFRESH_PERIOD_MS = .sleep PLOT_REFRESH_PERIOD_MS ∨
     TickerEvent.sleep PLOT_REFRESH_PERIOD_MS = .tick ()) :=
  ⟨by decide,
   c6_ticker_period_and_payload.2.1 plotRefreshInit 1 _ (by decide)⟩

/-- C4: one refresh cycle queries `get_simulation_index()` exactly once, and
every per-series read it issues is at an index bounded by `ci`, the value
returned by that single query (the reads are at `ci - 1` and at
`z ∈ [1..ci-1]`). -/
theorem c4_single_index_snapshot (ci : Int) :
    (refreshStoreOps ci).count .queryIndex = 1 ∧
    (∀ (i : Int) (name : SeriesName),
      .readAt i name ∈ refreshStoreOps ci → i ≤ ci) := by
  constructor
  · have h2 : (((refreshXs (ci - 1)).flatMap fun z =>
        [StoreReadOp.readAt z .time, .readAt z .distance, .readAt z .velocity,
         .readAt z .trackMaxVelocity, .readAt z .acceleration,
         .readAt z .motorPower]).count StoreReadOp.queryIndex) = 0 := by
      rw [List.count_eq_zero]
      intro hmem
      simp [List.mem_flatMap] at hmem
    simp [refreshStoreOps, List.count_append, h2, List.count_cons]
  · intro i name hmem
    simp only [refreshStoreOps, List.mem_append, List.mem_cons,
      List.not_mem_nil, or_false, List.mem_flatMap] at hmem
    rcases hmem with (h | h | h | h | h | h | h) | ⟨z, hz, h⟩
    · exact absurd h (by simp)
    all_goals first
      | (injection h with h1 h2
         omega)
      | (simp only [refreshXs, List.mem_map, List.mem_range] at hz
         obtain ⟨k, hk, rfl⟩ := hz
         rcases h with h | h | h | h | h | h <;>
           (injection h with h1 h2
            omega))

/-- Witness for C4 at a concrete input: with snapshot `ci = 4` the
operation trace of the cycle has exactly one index query, and the read at index 3 it
contains is bounded by the snapshot. -/
theorem c4_single_index_snapshot_witness :
    (refreshStoreOps 4).count .queryIndex = 1 ∧ (3 : Int) ≤ 4 :=
  ⟨(c4_single_index_snapshot 4).1,
   (c4_single_index_snapshot 4).2 3 .time (by decide)⟩

/-- Bind of an `ok` value in the `Except` monad reduces to the continuation. -/
theorem exceptBind_ok {ε α β : Type} (a : α) (f : α → Except ε β) :
    ((Except.ok a : Except ε α) >>= f) = f a :=
  rfl

/-- Bind of an `error` in the `Except` monad short-circuits. -/
theorem exceptBind_error {ε α β : Type} (e : ε) (f : α → Except ε β) :
    ((Except.error e : Except ε α) >>= f) = .error e :=
  rfl

/-- Inversion: a successful `Except` bind factors through a successful first
component. -/
theorem exceptBind_eq_ok {ε α β : Type} {x : Except ε α}
    {f : α → Except ε β} {b : β} (h : (x >>= f) = .ok b) :
    ∃ a, x = .ok a ∧ f a = .ok b := by
  cases x with
  | error e =>
    rw [exceptBind_error] at h
    exact Except.noConfusion h
  | ok a => exact ⟨a, rfl, by rw [exceptBind_ok] at h; exact h⟩

/-- Every element of `refreshXs csi` lies in `[1 .. csi]`. -/
theorem mem_refreshXs {csi z : Int} (hz : z ∈ refreshXs csi) :
    1 ≤ z ∧ z ≤ csi := by
  unfold refreshXs at hz
  rcases List.mem_map.mp hz with ⟨k, hkr, rfl⟩
  have hk := List.mem_range.mp hkr
  omega

/-- In the `n`-record scenario store, reading any in-range index returns the
value stored at that index. -/
theorem committedStore_read (n : ℕ) (name : SeriesName) (z : Int)
    (h0 : 0 ≤ z) (hn : z < (n : Int)) :
    read_field (committedStore n) z name = .ok (z.toNat : ℚ) := by
  simp only [read_field, committedStore]
  rw [if_neg (by omega)]
  congr 1
  have hlt : z.toNat < n := by omega
  rw [List.getD_eq_getElem _ _ (by simpa using hlt)]
  simp

/-- The plotting loop over in-range indices of the scenario store returns the
values at those indices in every series list. -/
theorem plotSeriesLists_committed (n : ℕ) (xs : List Int) :
    (∀ z ∈ xs, 0 ≤ z ∧ z < (n : Int)) →
    plotSeriesLists (committedStore n) xs =
      .ok (xs.map fun z => (z.toNat : ℚ), xs.map fun z => (z.toNat : ℚ),
           xs.map fun z => (z.toNat : ℚ), xs.map fun z => (z.toNat : ℚ),
           xs.map fun z => (z.toNat : ℚ), xs.map fun z => (z.toNat : ℚ)) := by
  induction xs with
  | nil => intro _; rfl
  | cons z rest ih =>
    intro hxs
    obtain ⟨hz0, hzn⟩ := hxs z (List.mem_cons_self z rest)
    have hrest := ih fun w hw => hxs w (List.mem_cons_of_mem z hw)
    simp only [plotSeriesLists, get_time_at_index, get_distance_at_index,
      get_velocity_at_index, get_track_max_velocity_at_index,
      get_acceleration_at_index, get_motor_power_at_index,
      committedStore_read n _ z hz0 hzn, exceptBind_ok, hrest, List.map_cons]

/-- If a refresh cycle completes, its battery-power plot argument is exactly
`x = refreshXs (snapshot - 1)` with an always-empty `y` when the checkbox is
checked, and absent otherwise. -/
theorem signalPlotRefresh_p6 (s : DataStore) (cb : Checkboxes)
    (out : RefreshOutput) (h : signalPlotRefresh s cb = .ok out) :
    out.p6 = if cb.batteryPower then
      some { x := refreshXs (get_simulation_index s - 1), y := ([] : List ℚ) }
    else none := by
  unfold signalPlotRefresh at h
  obtain ⟨t, h1, h⟩ := exceptBind_eq_ok h
  obtain ⟨d, h2, h⟩ := exceptBind_eq_ok h
  obtain ⟨v, h3, h⟩ := exceptBind_eq_ok h
  obtain ⟨a, h4, h⟩ := exceptBind_eq_ok h
  obtain ⟨mp, h5, h⟩ := exceptBind_eq_ok h
  obtain ⟨bp, h6, h⟩ := exceptBind_eq_ok h
  obtain ⟨lists, h7, h⟩ := exceptBind_eq_ok h
  obtain ⟨ts, ds, vs, mvs, accs, mps⟩ := lists
  have hout := Except.ok.inj h
  rw [← hout]

/-- C10: in every completed refresh cycle with the Battery Power checkbox
checked, the `p6` plot call has `x` of length equal to the snapshot index
`current_sim_index` (when that is non-negative) but `y` always the empty
list, so the two lengths differ whenever the snapshot index is positive. -/
theorem c10_battery_power_empty_y (s : DataStore) (cb : Checkboxes)
    (out : RefreshOutput) (hcb : cb.batteryPower = true)
    (h : signalPlotRefresh s cb = .ok out) :
    out.p6 = some { x := refreshXs (get_simulation_index s - 1),
                    y := ([] : List ℚ) } ∧
    (0 ≤ get_simulation_index s - 1 →
      ((refreshXs (get_simulation_index s - 1)).length : Int) =
        get_simulation_index s - 1) ∧
    (0 < get_simulation_index s - 1 →
      (refreshXs (get_simulation_index s - 1)).length ≠
        ([] : List ℚ).length) := by
  refine ⟨?_, ?_, ?_⟩
  · rw [signalPlotRefresh_p6 s cb out h, if_pos hcb]
  · intro hpos
    simp only [refreshXs, List.length_map, List.length_range]
    omega
  · intro hpos
    simp only [refreshXs, List.length_map, List.length_range, List.length_nil]
    omega

/-- Witness for C10: the 5-record scenario store with only Battery Power
checked completes its refresh with `p6 = some ⟨[1,2,3], []⟩` — mismatched
x/y lengths. -/
theorem c10_battery_power_empty_y_witness :
    refreshOutput5.p6 =
      some { x := refreshXs (get_simulation_index (committedStore 5) - 1),
             y := ([] : List ℚ) } ∧
    (0 ≤ get_simulation_index (committedStore 5) - 1 →
      ((refreshXs (get_simulation_index (committedStore 5) - 1)).length : Int) =
        get_simulation_index (committedStore 5) - 1) ∧
    (0 < get_simulation_index (committedStore 5) - 1 →
      (refreshXs (get_simulation_index (committedStore 5) - 1)).length ≠
        ([] : List ℚ).length) :=
  c10_battery_power_empty_y (committedStore 5) cbBatteryOnly refreshOutput5
    rfl (by rfl)

/-- C3 counterexample: on the freshly created store the refresh cycle issues
its first read at index `-2` (negative, unguarded) and the resulting
`OutOfRangeError` propagates out of the handler instead of being handled
locally by clamping or skipping. -/
theorem c3_counterexample :
    signalPlotRefresh DataStore.initial cbNone = .error .outOfRange ∧
    StoreReadOp.readAt (-2) .time ∈
      refreshStoreOps (get_simulation_index DataStore.initial) :=
  ⟨rfl, by decide⟩

/-- C3 (amended): the refresh handler contains no local handling of
`OutOfRangeError` — it reads at `current_index() - 1` without clamping, so
whenever `current_index() ≤ 0` the cycle issues a read at a negative index
and the error propagates out of `signalPlotRefresh`. -/
theorem c3_refresh_error_propagates (s : DataStore) (cb : Checkboxes)
    (hle : get_simulation_index s ≤ 0) :
    signalPlotRefresh s cb = .error .outOfRange ∧
    ∃ i name, i < 0 ∧
      StoreReadOp.readAt i name ∈ refreshStoreOps (get_simulation_index s) := by
  have h1 : get_time_at_index s (get_simulation_index s - 1) =
      .error .outOfRange := by
    simp only [get_time_at_index, read_field, get_simulation_index] at hle ⊢
    rw [if_pos (Or.inr (by omega))]
  constructor
  · simp only [signalPlotRefresh]
    rw [h1, exceptBind_error]
  · exact ⟨get_simulation_index s - 1, .time, by omega,
      by simp [refreshStoreOps]⟩

/-- Witness for the amended claim of C3: the initial store has index `-1 ≤ 0` and
its refresh cycle errors out with a negative-index read in its trace. -/
theorem c3_refresh_error_propagates_witness :
    get_simulation_index DataStore.initial ≤ 0 ∧
    (signalPlotRefresh DataStore.initial cbNone = .error .outOfRange ∧
     ∃ i name, i < 0 ∧
       StoreReadOp.readAt i name ∈
         refreshStoreOps (get_simulation_index DataStore.initial)) :=
  ⟨by decide, c3_refresh_error_propagates DataStore.initial cbNone (by decide)⟩

/-- C1 counterexample: after exactly 5 committed records with time values
[0,1,2,3,4], the refresh cycle plots the time values [1,2,3] — which is not
[0,1,2,3,4] and not a prefix of it starting at index 0 (index 0 is
skipped). -/
theorem c1_counterexample :
    (signalPlotRefresh (committedStore 5) cbNone).map (fun o => o.p1.y) =
      .ok [(1 : ℚ), 2, 3] ∧
    List.isPrefixOf [(1 : ℚ), 2, 3] [0, 1, 2, 3, 4] = false :=
  ⟨rfl, by decide⟩

/-- C1 (amended): after the worker has committed exactly `n ≥ 2` records with
time values `[0, 1, ..., n-1]`, the sequence of time values the refresh cycle
plots is the values at the contiguous indices `1 .. n-2`, i.e.
`[1, 2, ..., n-2]` — gap-free and contained in the committed series, but
omitting index 0 and the last committed index, hence not a prefix starting at
index 0 (for `n = 5` it is `[1,2,3]`, not `[0,1,2,3,4]`). -/
theorem c1_time_plot_skips_index_zero (n : ℕ) (cb : Checkboxes) (hn : 2 ≤ n) :
    (signalPlotRefresh (committedStore n) cb).map (fun o => o.p1.y) =
      .ok ((List.range (n - 2)).map fun k => ((k + 1 : ℕ) : ℚ)) := by
  have hcsi : get_simulation_index (committedStore n) - 1 = (n : Int) - 2 := by
    simp only [get_simulation_index, committedStore]
    ring
  have hread : ∀ name, read_field (committedStore n) ((n : Int) - 2) name =
      .ok ((((n : Int) - 2).toNat : ℕ) : ℚ) :=
    fun name => committedStore_read n name _ (by omega) (by omega)
  have hxs : ∀ z ∈ refreshXs ((n : Int) - 2), 0 ≤ z ∧ z < (n : Int) := by
    intro z hz
    have hz2 := mem_refreshXs hz
    omega
  have hloop := plotSeriesLists_committed n (refreshXs ((n : Int) - 2)) hxs
  simp only [signalPlotRefresh, hcsi, get_time_at_index, get_distance_at_index,
    get_velocity_at_index, get_acceleration_at_index, get_motor_power_at_index,
    get_battery_power_at_index, hread, exceptBind_ok, hloop, Except.map]
  congr 1
  unfold refreshXs
  rw [List.map_map]
  have h2 : ((n : Int) - 2).toNat = n - 2 := by omega
  rw [h2]
  apply List.map_congr_left
  intro k hk
  simp only [Function.comp_apply]
  congr 1

/-- Witness for the amended claim of C1 at the scenario value `n = 5`. -/
theorem c1_time_plot_skips_index_zero_witness :
    2 ≤ 5 ∧
    (signalPlotRefresh (committedStore 5) cbNone).map (fun o => o.p1.y) =
      .ok ((List.range (5 - 2)).map fun k => ((k + 1 : ℕ) : ℚ)) :=
  ⟨by decide, c1_time_plot_skips_index_zero 5 cbNone (by decide)⟩
